import Mathlib

/-!
Shallow embedding of `ledger/src/blockstore_meta.rs`: the blockstore
metadata layer (SlotMeta, Index/ShredIndex, ErasureMeta and its
recoverability status).  Machine integers (`u64`, `usize`) are modelled as
`Nat`; the `u64::MAX` sentinel is the explicit constant `U64_MAX`.  The
`BTreeSet` containers become `Finset ℕ` (for the shred presence sets) and
`next_slots: Vec<Slot>` becomes `List ℕ`.
-/

/-- `std::u64::MAX`, used by the source as the "unknown" sentinel for
`last_index` and `parent_slot`. -/
def U64_MAX : ℕ := 2 ^ 64 - 1

/-- A Rust `Range<u64>` (`start..stop`), half-open. -/
structure RangeU64 where
  start : ℕ
  stop : ℕ
  deriving Repr, DecidableEq

/-- Modelled from the spec: `ErasureConfig` lives in `crate::erasure`,
which is not part of this source unit.  The spec describes it as the FEC
shape — "number of data shards, number of parity shards — structurally
configuration, compared by value" — with accessors `num_data()` and
`num_coding()` and constructor `ErasureConfig::new(num_data, num_coding)`. -/
structure ErasureConfig where
  num_data : ℕ
  num_coding : ℕ
  deriving Repr, DecidableEq

def ErasureConfig.new (num_data num_coding : ℕ) : ErasureConfig :=
  { num_data := num_data, num_coding := num_coding }

/-- `ShredType` from `crate::shred`: a shred is either data-carrying or
parity-carrying ("coding"). -/
inductive ShredType where
  | Data : ShredType
  | Code : ShredType
  deriving Repr, DecidableEq

/-- Modelled from the spec: `Shred` lives in `crate::shred`, not in this
source unit.  Only the fields `from_coding_shred` reads are modelled: the
shred type, the coding header's `num_data_shreds` / `num_coding_shreds`,
the FEC set index, and the shred's first coding index (per the spec,
"`first_coding_index` from the fragment's own position"). -/
structure Shred where
  shred_type : ShredType
  num_data_shreds : ℕ
  num_coding_shreds : ℕ
  fec_set_index : ℕ
  first_coding_index : ℕ
  deriving Repr, DecidableEq

/-- `ShredIndex`: map representing presence/absence of shreds
(a `BTreeSet<u64>`). -/
structure ShredIndex where
  index : Finset ℕ
  deriving DecidableEq

instance : Inhabited ShredIndex := ⟨⟨∅⟩⟩

def ShredIndex.default : ShredIndex := ⟨∅⟩

def ShredIndex.num_shreds (s : ShredIndex) : ℕ := s.index.card

/-- `present_in_bounds` over a half-open `Range<u64>`: the count of
present positions inside the range (`self.index.range(bounds).count()`). -/
def ShredIndex.present_in_bounds (s : ShredIndex) (bounds : RangeU64) : ℕ :=
  (s.index.filter (fun i => bounds.start ≤ i ∧ i < bounds.stop)).card

def ShredIndex.is_present (s : ShredIndex) (i : ℕ) : Bool :=
  decide (i ∈ s.index)

def ShredIndex.set_present (s : ShredIndex) (i : ℕ) (presence : Bool) :
    ShredIndex :=
  if presence then ⟨insert i s.index⟩ else ⟨s.index.erase i⟩

def ShredIndex.set_many_present (s : ShredIndex) (presence : List (ℕ × Bool)) :
    ShredIndex :=
  presence.foldl (fun acc p => acc.set_present p.1 p.2) s

def ShredIndex.largest (s : ShredIndex) : Option ℕ := s.index.max

/-- `Index`: presence/absence of shreds for one slot, one `ShredIndex` for
data shreds and one for coding shreds. -/
structure Index where
  slot : ℕ
  data : ShredIndex
  coding : ShredIndex
  deriving DecidableEq

def Index.new (slot : ℕ) : Index :=
  { slot := slot, data := ShredIndex.default, coding := ShredIndex.default }

/-- `SlotMeta`: the per-slot metadata record. -/
structure SlotMeta where
  slot : ℕ
  consumed : ℕ
  received : ℕ
  first_shred_timestamp : ℕ
  last_index : ℕ
  parent_slot : ℕ
  next_slots : List ℕ
  is_connected : Bool
  completed_data_indexes : Finset ℕ
  deriving DecidableEq

/-- `SlotMeta::default()` (the `Default` derive): every numeric field 0,
empty collections, `is_connected = false`. -/
def SlotMeta.default : SlotMeta :=
  { slot := 0, consumed := 0, received := 0, first_shred_timestamp := 0,
    last_index := 0, parent_slot := 0, next_slots := [],
    is_connected := false, completed_data_indexes := ∅ }

def SlotMeta.is_full (m : SlotMeta) : Bool :=
  -- last_index is u64::MAX when there is no information about how many
  -- shreds will fill this slot.
  if m.last_index = U64_MAX then false
  else
    -- the `consumed > last_index + 1` anomaly is only logged in the
    -- source (`datapoint_error!`); it does not change the result.
    decide (m.consumed = m.last_index + 1)

def SlotMeta.known_last_index (m : SlotMeta) : Option ℕ :=
  if m.last_index = U64_MAX then none else some m.last_index

def SlotMeta.is_parent_set (m : SlotMeta) : Bool :=
  decide (m.parent_slot ≠ U64_MAX)

def SlotMeta.new (slot parent_slot : ℕ) : SlotMeta :=
  { SlotMeta.default with
    slot := slot
    parent_slot := parent_slot
    is_connected := decide (slot = 0)
    last_index := U64_MAX }

def SlotMeta.new_orphan (slot : ℕ) : SlotMeta :=
  SlotMeta.new slot U64_MAX

/-- `clear_unconfirmed_slot`: build a fresh orphan for the same slot, swap
`next_slots` into it, and replace `self` with it. -/
def SlotMeta.clear_unconfirmed_slot (m : SlotMeta) : SlotMeta :=
  let new_self := SlotMeta.new_orphan m.slot
  { new_self with next_slots := m.next_slots }

/-- `ErasureMeta`: erasure coding information for one FEC set. -/
structure ErasureMeta where
  set_index : ℕ
  first_coding_index : ℕ
  __unused_size : ℕ
  config : ErasureConfig
  deriving Repr, DecidableEq

inductive ErasureMetaStatus where
  | CanRecover : ErasureMetaStatus
  | DataFull : ErasureMetaStatus
  | StillNeed : ℕ → ErasureMetaStatus
  deriving Repr, DecidableEq

def ErasureMeta.from_coding_shred (shred : Shred) : Option ErasureMeta :=
  match shred.shred_type with
  | ShredType.Data => none
  | ShredType.Code =>
      some
        { set_index := shred.fec_set_index
          config :=
            ErasureConfig.new shred.num_data_shreds shred.num_coding_shreds
          first_coding_index := shred.first_coding_index
          __unused_size := 0 }

/-- Returns true if the erasure fields on the shred are consistent with
the erasure meta.  `__unused_size` and (for backward compatibility)
`first_coding_index` are overwritten with the stored values before the
comparison. -/
def ErasureMeta.check_coding_shred (e : ErasureMeta) (shred : Shred) : Bool :=
  match ErasureMeta.from_coding_shred shred with
  | none => false
  | some other =>
      let other' := { other with
                      __unused_size := e.__unused_size
                      first_coding_index := e.first_coding_index }
      decide (e = other')

def ErasureMeta.data_shreds_indices (e : ErasureMeta) : RangeU64 :=
  { start := e.set_index, stop := e.set_index + e.config.num_data }

def ErasureMeta.coding_shreds_indices (e : ErasureMeta) : RangeU64 :=
  -- first_coding_index == 0 may imply that the field is not populated;
  -- fall back to set_index for backward compatibility.
  let first_coding_index :=
    if e.first_coding_index = 0 then e.set_index else e.first_coding_index
  { start := first_coding_index,
    stop := first_coding_index + e.config.num_coding }

def ErasureMeta.status (e : ErasureMeta) (index : Index) : ErasureMetaStatus :=
  let num_coding := index.coding.present_in_bounds e.coding_shreds_indices
  let num_data := index.data.present_in_bounds e.data_shreds_indices
  -- `Nat` subtraction is saturating, matching `usize::saturating_sub`.
  let data_missing := e.config.num_data - num_data
  let num_needed := e.config.num_data - (num_data + num_coding)
  if data_missing = 0 then ErasureMetaStatus.DataFull
  else if num_needed = 0 then ErasureMetaStatus.CanRecover
  else ErasureMetaStatus.StillNeed num_needed

/-!  Helper lemmas about `present_in_bounds`.  -/

/-- The count of present positions inside a range never exceeds the
length of the range. -/
theorem ShredIndex.present_in_bounds_le (s : ShredIndex) (r : RangeU64) :
    s.present_in_bounds r ≤ r.stop - r.start := by
  have h : s.index.filter (fun i => r.start ≤ i ∧ i < r.stop) ⊆
      Finset.Ico r.start r.stop := by
    intro i hi
    simp only [Finset.mem_filter] at hi
    exact Finset.mem_Ico.mpr hi.2
  calc s.present_in_bounds r ≤ (Finset.Ico r.start r.stop).card :=
        Finset.card_le_card h
    _ = r.stop - r.start := Nat.card_Ico _ _

/-- If no position in the range is present, the in-range count is zero. -/
theorem ShredIndex.present_in_bounds_eq_zero (s : ShredIndex) (r : RangeU64)
    (h : ∀ i, r.start ≤ i → i < r.stop → s.is_present i = false) :
    s.present_in_bounds r = 0 := by
  unfold ShredIndex.present_in_bounds
  rw [Finset.card_eq_zero, Finset.filter_eq_empty_iff]
  rintro x hx ⟨h1, h2⟩
  have hfalse := h x h1 h2
  simp only [ShredIndex.is_present, decide_eq_false_iff_not] at hfalse
  exact hfalse hx

/-- C2: `is_full` is true exactly when `last_index` is not the `u64::MAX`
sentinel and `consumed = last_index + 1`; in particular a slot with
`consumed > last_index + 1` yields `false` (the function is total — the
anomaly is only logged), and a freshly constructed orphan is never full. -/
theorem SlotMeta.is_full_iff :
    ∀ m : SlotMeta,
      (m.is_full = true ↔
        m.last_index ≠ U64_MAX ∧ m.consumed = m.last_index + 1) ∧
      ∀ s : ℕ, (SlotMeta.new_orphan s).is_full = false := by
  intro m
  constructor
  · unfold SlotMeta.is_full
    split
    · simp_all
    · simp_all
  · intro s
    simp [SlotMeta.is_full, SlotMeta.new_orphan, SlotMeta.new]

/-- C3: `clear_unconfirmed_slot` yields exactly a freshly constructed
orphan for the same slot identifier — `consumed`, `received`,
`first_shred_timestamp` and `completed_data_indexes` at their defaults,
`last_index` and `parent_slot` at the `u64::MAX` sentinel — except that
`next_slots` is preserved verbatim. -/
theorem SlotMeta.clear_unconfirmed_slot_spec :
    ∀ m : SlotMeta,
      m.clear_unconfirmed_slot =
        { SlotMeta.new_orphan m.slot with next_slots := m.next_slots } ∧
      m.clear_unconfirmed_slot.slot = m.slot ∧
      m.clear_unconfirmed_slot.consumed = 0 ∧
      m.clear_unconfirmed_slot.received = 0 ∧
      m.clear_unconfirmed_slot.first_shred_timestamp = 0 ∧
      m.clear_unconfirmed_slot.completed_data_indexes = ∅ ∧
      m.clear_unconfirmed_slot.last_index = U64_MAX ∧
      m.clear_unconfirmed_slot.parent_slot = U64_MAX ∧
      m.clear_unconfirmed_slot.next_slots = m.next_slots := by
  intro m
  refine ⟨rfl, rfl, rfl, rfl, rfl, rfl, rfl, rfl, rfl⟩

/-- C7: `set_present p true` makes `p` present, `set_present p false`
makes it absent, and `set_present` is idempotent. -/
theorem ShredIndex.set_present_spec :
    ∀ (s : ShredIndex) (p : ℕ) (b : Bool),
      (s.set_present p true).is_present p = true ∧
      (s.set_present p false).is_present p = false ∧
      (s.set_present p b).set_present p b = s.set_present p b := by
  intro s p b
  refine ⟨?_, ?_, ?_⟩
  · simp [ShredIndex.set_present, ShredIndex.is_present]
  · simp [ShredIndex.set_present, ShredIndex.is_present]
  · cases b <;> simp [ShredIndex.set_present]

/-- C8: a freshly constructed `SlotMeta` (via `new`, hence also via
`new_orphan`) is connected exactly when its slot identifier is 0. -/
theorem SlotMeta.new_is_connected :
    ∀ s p : ℕ,
      (SlotMeta.new s p).is_connected = decide (s = 0) ∧
      (SlotMeta.new_orphan s).is_connected = decide (s = 0) := by
  intro s p
  exact ⟨rfl, rfl⟩

/-- C9: after `clear_unconfirmed_slot` the `is_connected` flag equals
`slot = 0` — true for the root slot, false for every other slot — so for
slot 0 the reset does not restore the type's default value `false`. -/
theorem SlotMeta.clear_unconfirmed_slot_is_connected :
    ∀ m : SlotMeta,
      m.clear_unconfirmed_slot.is_connected = decide (m.slot = 0) ∧
      SlotMeta.default.is_connected = false := by
  intro m
  exact ⟨rfl, rfl⟩

/-- C1: `status` returns `DataFull` when the count of present data
positions equals `num_data` (regardless of parity presence); otherwise
`CanRecover` when present data plus present parity is at least
`num_data`; otherwise `StillNeed` of the remaining shortfall. -/
theorem ErasureMeta.status_spec :
    ∀ (e : ErasureMeta) (index : Index),
      e.status index =
        if index.data.present_in_bounds e.data_shreds_indices =
            e.config.num_data then
          ErasureMetaStatus.DataFull
        else if e.config.num_data ≤
            index.data.present_in_bounds e.data_shreds_indices +
              index.coding.present_in_bounds e.coding_shreds_indices then
          ErasureMetaStatus.CanRecover
        else
          ErasureMetaStatus.StillNeed
            (e.config.num_data -
              (index.data.present_in_bounds e.data_shreds_indices +
                index.coding.present_in_bounds e.coding_shreds_indices)) := by
  intro e index
  have hle : index.data.present_in_bounds e.data_shreds_indices ≤
      e.config.num_data := by
    have h := ShredIndex.present_in_bounds_le index.data e.data_shreds_indices
    simpa [ErasureMeta.data_shreds_indices] using h
  simp only [ErasureMeta.status]
  split_ifs <;> first | rfl | (exfalso; omega)

/-- C5: `data_shreds_indices` is the half-open range
`[set_index, set_index + num_data)`; `coding_shreds_indices` starts at
`set_index` when `first_coding_index = 0` (legacy-unpopulated sentinel)
and at `first_coding_index` otherwise, with length `num_coding`. -/
theorem ErasureMeta.indices_spec :
    ∀ e : ErasureMeta,
      e.data_shreds_indices =
        { start := e.set_index, stop := e.set_index + e.config.num_data } ∧
      e.coding_shreds_indices =
        if e.first_coding_index = 0 then
          { start := e.set_index,
            stop := e.set_index + e.config.num_coding }
        else
          { start := e.first_coding_index,
            stop := e.first_coding_index + e.config.num_coding } := by
  intro e
  refine ⟨rfl, ?_⟩
  by_cases h : e.first_coding_index = 0 <;>
    simp [ErasureMeta.coding_shreds_indices, h]

/-- C4: `from_coding_shred` returns `none` exactly on data shreds, and
`check_coding_shred` returns `true` exactly when the shred is a coding
shred whose derived erasure configuration and set index match the stored
meta, with `first_coding_index` (and the unused size field) ignored. -/
theorem ErasureMeta.check_coding_shred_spec :
    ∀ (e : ErasureMeta) (shred : Shred),
      (ErasureMeta.from_coding_shred shred = none ↔
        shred.shred_type = ShredType.Data) ∧
      (e.check_coding_shred shred = true ↔
        shred.shred_type = ShredType.Code ∧
        e.config =
          ErasureConfig.new shred.num_data_shreds shred.num_coding_shreds ∧
        e.set_index = shred.fec_set_index) := by
  intro e shred
  obtain ⟨si, fci, sz, cfg⟩ := e
  cases h : shred.shred_type
  · constructor
    · simp [ErasureMeta.from_coding_shred, h]
    · simp [ErasureMeta.check_coding_shred, ErasureMeta.from_coding_shred, h]
  · constructor
    · simp [ErasureMeta.from_coding_shred, h]
    · simp only [ErasureMeta.check_coding_shred,
        ErasureMeta.from_coding_shred, h, decide_eq_true_eq,
        ErasureMeta.mk.injEq]
      tauto

/-- C10: `check_coding_shred` does not depend on the stored meta's
`__unused_size` field: two stored metas that agree on everything else
give the same answer on every shred. -/
theorem ErasureMeta.check_coding_shred_unused_size :
    ∀ (e₁ e₂ : ErasureMeta) (shred : Shred),
      e₁.set_index = e₂.set_index →
      e₁.first_coding_index = e₂.first_coding_index →
      e₁.config = e₂.config →
      e₁.check_coding_shred shred = e₂.check_coding_shred shred := by
  intro e₁ e₂ shred h1 h2 h3
  obtain ⟨s1, f1, u1, c1⟩ := e₁
  obtain ⟨s2, f2, u2, c2⟩ := e₂
  simp only at h1 h2 h3
  subst h1; subst h2; subst h3
  cases h : shred.shred_type <;>
    simp [ErasureMeta.check_coding_shred, ErasureMeta.from_coding_shred, h,
      ErasureMeta.mk.injEq]

/-- Witness for C10: two concrete metas differing only in
`__unused_size` agree on a concrete coding shred. -/
theorem ErasureMeta.check_coding_shred_unused_size_witness :
    ErasureMeta.check_coding_shred
        { set_index := 0, first_coding_index := 1, __unused_size := 5,
          config := ErasureConfig.new 2 3 }
        { shred_type := ShredType.Code, num_data_shreds := 2,
          num_coding_shreds := 3, fec_set_index := 0,
          first_coding_index := 1 } =
      ErasureMeta.check_coding_shred
        { set_index := 0, first_coding_index := 1, __unused_size := 7,
          config := ErasureConfig.new 2 3 }
        { shred_type := ShredType.Code, num_data_shreds := 2,
          num_coding_shreds := 3, fec_set_index := 0,
          first_coding_index := 1 } :=
  ErasureMeta.check_coding_shred_unused_size _ _ _ rfl rfl rfl

/-- C6 fails as stated at a shape with zero data shards: on the empty
index (nothing present in either presence set) a meta with
`(num_data, num_coding) = (0, 2)` gets status `DataFull`, not
`StillNeed 0`. -/
theorem ErasureMeta.status_empty_index_cex :
    (Index.new 0).data.num_shreds = 0 ∧
    (Index.new 0).coding.num_shreds = 0 ∧
    ErasureMeta.status
        { set_index := 0, first_coding_index := 0, __unused_size := 0,
          config := ErasureConfig.new 0 2 } (Index.new 0) =
      ErasureMetaStatus.DataFull ∧
    ErasureMetaStatus.DataFull ≠
      ErasureMetaStatus.StillNeed (ErasureConfig.new 0 2).num_data := by
  refine ⟨rfl, rfl, rfl, by simp⟩

/-- C6 (amended): for every ErasureMeta whose shape has at least one
data shard, and every Index in which no position of the data range and
no position of the coding range is present, `status` returns
`StillNeed num_data`. -/
theorem ErasureMeta.status_empty_index :
    ∀ (e : ErasureMeta) (index : Index),
      1 ≤ e.config.num_data →
      (∀ i, e.data_shreds_indices.start ≤ i →
        i < e.data_shreds_indices.stop →
        index.data.is_present i = false) →
      (∀ i, e.coding_shreds_indices.start ≤ i →
        i < e.coding_shreds_indices.stop →
        index.coding.is_present i = false) →
      e.status index = ErasureMetaStatus.StillNeed e.config.num_data := by
  intro e index hD hdata hcoding
  have h1 : index.data.present_in_bounds e.data_shreds_indices = 0 :=
    ShredIndex.present_in_bounds_eq_zero _ _ hdata
  have h2 : index.coding.present_in_bounds e.coding_shreds_indices = 0 :=
    ShredIndex.present_in_bounds_eq_zero _ _ hcoding
  simp only [ErasureMeta.status, h1, h2, Nat.add_zero, Nat.sub_zero]
  rw [if_neg (by omega), if_neg (by omega)]

/-- Witness for the amended C6: a concrete (8 data, 4 coding) meta on
the empty index still needs all 8 data shreds. -/
theorem ErasureMeta.status_empty_index_witness :
    ErasureMeta.status
        { set_index := 0, first_coding_index := 0, __unused_size := 0,
          config := ErasureConfig.new 8 4 } (Index.new 0) =
      ErasureMetaStatus.StillNeed 8 :=
  ErasureMeta.status_empty_index _ _ (by decide)
    (by
      intro i h1 h2
      simp [Index.new, ShredIndex.default, ShredIndex.is_present])
    (by
      intro i h1 h2
      simp [Index.new, ShredIndex.default, ShredIndex.is_present])
